import Mathlib

/-!
Verification of the Bentham-to-IAM dataset conversion pipeline
(`bentham_to_iam.py`): file discovery, image/transcription matching,
ground-truth writing, and the train/validation split.

Strings are modelled as `List Char`; directories as listings of file
names in filesystem enumeration order; fallible file reads as
`Option (List Char)`.
-/

/-- Whitespace characters stripped by Python `str.strip()` (ASCII range). -/
def isPySpace (c : Char) : Bool :=
  c == ' ' || c == '\t' || c == '\n' || c == '\r' || c == '\x0b' || c == '\x0c'

/-- Model of Python `str.strip()`: remove leading and trailing whitespace. -/
def pyStrip (s : List Char) : List Char :=
  ((s.dropWhile isPySpace).reverse.dropWhile isPySpace).reverse

/-- Fueled worker for `replaceEmpty`: scan left to right; on a pattern match,
remove it and continue after the matched region (Python `str.replace(pat, "")`
semantics for a nonempty pattern). -/
def replaceEmptyAux (pat : List Char) : Nat → List Char → List Char
  | _, [] => []
  | 0, s => s
  | fuel + 1, c :: rest =>
    if pat.isPrefixOf (c :: rest) && !pat.isEmpty then
      replaceEmptyAux pat fuel ((c :: rest).drop pat.length)
    else
      c :: replaceEmptyAux pat fuel rest

/-- Model of Python `s.replace(pat, "")` for a nonempty pattern `pat`:
delete every leftmost non-overlapping occurrence of `pat` in `s`. -/
def replaceEmpty (pat : List Char) (s : List Char) : List Char :=
  replaceEmptyAux pat s.length s

/-- Model of `stem.replace('-line', '').replace('_line', '').replace('.line', '')`
from strategy 2 of the matcher. -/
def cleanFragments (s : List Char) : List Char :=
  replaceEmpty ".line".data (replaceEmpty "_line".data (replaceEmpty "-line".data s))

/-- Model of Python `s.replace('-', '_')` (single-character pattern). -/
def replaceDash (s : List Char) : List Char :=
  s.map (fun c => if c == '-' then '_' else c)

/-- Model of Python substring containment `sub in hay` (contiguous). -/
def containsSeq (sub : List Char) : List Char → Bool
  | [] => sub.isPrefixOf []
  | c :: rest => sub.isPrefixOf (c :: rest) || containsSeq sub rest

/-- Positions of the dot character inside a file name. -/
def dotPositions (name : List Char) : List Nat :=
  (List.range name.length).filter (fun i => name.getD i ' ' == '.')

/-- Model of `pathlib` `Path.suffix`: the part from the last dot on, provided
that dot is neither the first nor the last character. -/
def pathSuffix (name : List Char) : List Char :=
  match (dotPositions name).getLast? with
  | none => []
  | some i => if 0 < i && i < name.length - 1 then name.drop i else []

/-- Model of `pathlib` `Path.stem`: the name with `pathSuffix` removed. -/
def pathStem (name : List Char) : List Char :=
  match (dotPositions name).getLast? with
  | none => name
  | some i => if 0 < i && i < name.length - 1 then name.take i else name

/-- An image file, identified by its file name. -/
structure ImgFile where
  name : List Char
deriving DecidableEq

/-- Stem of an image file (`image_file.stem` in the source). -/
def ImgFile.stem (f : ImgFile) : List Char := pathStem f.name

/-- A transcription file: its name, and the outcome of reading it
(`some` raw content, or `none` when the read raises). -/
structure TxtFile where
  name : List Char
  readResult : Option (List Char)
deriving DecidableEq

/-- Stem of a transcription file (`text_file.stem` in the source). -/
def TxtFile.stem (t : TxtFile) : List Char := pathStem t.name

/-- Strategy 1 of the matcher: first transcription file whose stem equals the
image stem exactly. -/
def strat1Find (istem : List Char) (ts : List TxtFile) : Option TxtFile :=
  ts.find? (fun t => t.stem == istem)

/-- Strategy 2 of the matcher: first transcription file whose stem equals the
image stem after stripping the fragments `-line`, `_line`, `.line` from both. -/
def strat2Find (istem : List Char) (ts : List TxtFile) : Option TxtFile :=
  ts.find? (fun t => cleanFragments t.stem == cleanFragments istem)

/-- Strategy 3 of the matcher: first transcription file whose stem contains the
image stem, or is contained in it, or equals it after replacing `-` with `_`. -/
def strat3Find (istem : List Char) (ts : List TxtFile) : Option TxtFile :=
  ts.find? (fun t =>
    containsSeq istem t.stem || containsSeq t.stem istem ||
      replaceDash istem == replaceDash t.stem)

/-- The matcher's per-image search (`match_images_with_transcriptions` inner
loop): try strategy 1, then strategy 2, then strategy 3. -/
def findTranscription (istem : List Char) (ts : List TxtFile) : Option TxtFile :=
  match strat1Find istem ts with
  | some t => some t
  | none =>
    match strat2Find istem ts with
    | some t => some t
    | none => strat3Find istem ts

/-- The matcher's main loop: returns `(matched_pairs, unmatched_images)` in
image order. A matched transcription is read and stripped; if the read fails
the image is added to neither list (only an error message is printed). -/
def matchImages : List ImgFile → List TxtFile → List (ImgFile × List Char) × List ImgFile
  | [], _ => ([], [])
  | img :: rest, ts =>
    let prev := matchImages rest ts
    match findTranscription img.stem ts with
    | some t =>
      match t.readResult with
      | some raw => ((img, pyStrip raw) :: prev.1, prev.2)
      | none => prev
    | none => (prev.1, img :: prev.2)

/-- Fueled worker computing the decimal digits of `n`, least significant
first. Correct whenever `n ≤ fuel`. -/
def digitsRevAux : Nat → Nat → List Nat
  | _, 0 => []
  | 0, _ + 1 => []
  | fuel + 1, n + 1 => ((n + 1) % 10) :: digitsRevAux fuel ((n + 1) / 10)

/-- Decimal digits of `n`, most significant first (`[0]` for zero). -/
def decimalDigits (n : Nat) : List Nat :=
  if n = 0 then [0] else (digitsRevAux n n).reverse

/-- Decimal representation of `n` as characters. -/
def decimalChars (n : Nat) : List Char :=
  (decimalDigits n).map Nat.digitChar

/-- Left-pad with `'0'` to width `w` (Python `format(i, '06d')` padding). -/
def padZeros (w : Nat) (s : List Char) : List Char :=
  List.replicate (w - s.length) '0' ++ s

/-- The id assigned to the `i`-th matched pair: `f"bentham_{i:06d}"`. -/
def formatId (i : Nat) : List Char :=
  "bentham_".data ++ padZeros 6 (decimalChars i)

/-- The mapping-file entry for the `i`-th matched pair (without the trailing
newline added at write time): `f"{image_id} {text_content}"`. -/
def gtEntryLine (i : Nat) (text : List Char) : List Char :=
  formatId i ++ ' ' :: text

/-- The output file name of the `i`-th copied image:
`f"bentham_{i:06d}{image_file.suffix}"`. -/
def copiedName (i : Nat) (img : ImgFile) : List Char :=
  formatId i ++ pathSuffix img.name

/-- The writer loop body (`for i, (image_file, text_content) in enumerate(...)`):
for each pair, one mapping-file line and one copied-image name, starting the
index at `i`. -/
def writerRows : Nat → List (ImgFile × List Char) → List (List Char × List Char)
  | _, [] => []
  | i, p :: rest => (gtEntryLine i p.2, copiedName i p.1) :: writerRows (i + 1) rest

/-- The mapping-file lines written by the dataset writer. -/
def mappingLines (pairs : List (ImgFile × List Char)) : List (List Char) :=
  (writerRows 0 pairs).map Prod.fst

/-- The copied-image file names produced by the dataset writer. -/
def copiedNames (pairs : List (ImgFile × List Char)) : List (List Char) :=
  (writerRows 0 pairs).map Prod.snd

/-- The bytes of the mapping file: each entry followed by a newline
(`f.write(f"... text ...\n")` per pair). -/
def renderGt (lines : List (List Char)) : List Char :=
  lines.foldr (fun l acc => l ++ '\n' :: acc) []

/-- The fixed extension list of the discovery stage. -/
def imageExtensions : List (List Char) :=
  [".png".data, ".jpg".data, ".jpeg".data, ".tiff".data, ".bmp".data]

/-- `ext.upper()` on an extension. -/
def upperExt (e : List Char) : List Char := e.map Char.toUpper

/-- Model of `Path(dir).glob('*' + ext)` membership: the name ends with `ext`
and is not a hidden (dot-initial) file. -/
def globMatch (ext : List Char) (name : List Char) : Bool :=
  ext.isSuffixOf name && name.head? != some '.'

/-- Discovery of image files: for each extension, extend with the glob of the
lowercase pattern and then of the uppercase pattern, preserving the
directory's incidental enumeration order inside each pattern. -/
def discoverImages (dir : List (List Char)) : List (List Char) :=
  imageExtensions.foldl
    (fun acc ext => acc ++ dir.filter (globMatch ext) ++ dir.filter (globMatch (upperExt ext)))
    []

/-- Discovery of transcription files: `Path(dir).glob('*.txt')`. -/
def discoverTexts (ts : List TxtFile) : List TxtFile :=
  ts.filter (fun t => globMatch ".txt".data t.name)

/-- The distinct reported failure conditions of `create_iam_format_dataset`. -/
inductive ErrKind where
  | missingImagesDir
  | missingTranscriptionsDir
  | noPairs
deriving DecidableEq

/-- Input of the conversion: the `Images/Lines` listing and the
`Transcriptions` listing, each `none` when the directory does not exist. -/
structure BenthamInput where
  imagesLinesDir : Option (List (List Char))
  transcriptionsDir : Option (List TxtFile)

/-- Observable outcome of `create_iam_format_dataset`: its boolean return
value, which error message (if any) was reported, whether the output images
directory was created, the mapping file (absent when not written), and the
copied image names. -/
structure ConvertOutcome where
  success : Bool
  errorKind : Option ErrKind
  outputDirCreated : Bool
  gtFile : Option (List (List Char))
  copiedImages : List (List Char)
deriving DecidableEq

/-- Model of `create_iam_format_dataset`: check the two input directories,
create the output directory, discover and match files, and either report
`noPairs` or write the mapping file and copy the images. -/
def create_iam_format_dataset (inp : BenthamInput) : ConvertOutcome :=
  match inp.imagesLinesDir with
  | none => ⟨false, some ErrKind.missingImagesDir, false, none, []⟩
  | some imgDir =>
    match inp.transcriptionsDir with
    | none => ⟨false, some ErrKind.missingTranscriptionsDir, false, none, []⟩
    | some txtDir =>
      let imgs := (discoverImages imgDir).map ImgFile.mk
      let ts := discoverTexts txtDir
      let pairs := (matchImages imgs ts).1
      if pairs = [] then
        ⟨false, some ErrKind.noPairs, true, none, []⟩
      else
        ⟨true, none, true, some (mappingLines pairs), copiedNames pairs⟩

/-- Modelled from the spec: a deterministic pseudorandom word stream.  The
source calls Python's Mersenne Twister (`random`), whose internals are outside
this repository; the spec only requires a deterministic permutation fixed by
the seed, so a linear congruential step stands in for the stream. -/
def lcg (s : Nat) : Nat :=
  (s * 6364136223846793005 + 1442695040888963407) % (2 ^ 64)

/-- Fueled Fisher-Yates-style selection shuffle: pick the position
`s % length`, emit that element, recurse on the rest with the next stream
value. Correct (a permutation) whenever `l.length ≤ fuel`. -/
def shuffleAux {α : Type} (fuel : Nat) (s : Nat) (l : List α) : List α :=
  match fuel, l with
  | _, [] => []
  | 0, l => l
  | fuel + 1, c :: rest =>
    let j := s % (c :: rest).length
    (c :: rest).getD j c :: shuffleAux fuel (lcg s) ((c :: rest).eraseIdx j)

/-- Modelled from the spec: `random.seed(seed)` followed by
`random.shuffle(l)` — a deterministic permutation of `l` fixed by the seed
and the input sequence. -/
def pyShuffle {α : Type} (seed : Nat) (l : List α) : List α :=
  shuffleAux l.length (lcg seed) l

/-- The global state of Python's `random` module before the split runs. -/
structure PyRandomState where
  state : Nat
deriving DecidableEq

/-- Model of `create_train_val_split`: fail (`none`) when the mapping file is
absent; otherwise reseed the generator with the constant 42 — discarding the
ambient state `_g` — shuffle the entries, and split at `splitPoint`
(`int(len(all_entries) * train_ratio)` in the source; the exact value of that
float computation is taken here as an arbitrary natural number). -/
def create_train_val_split (_g : PyRandomState) (gtFile : Option (List (List Char)))
    (splitPoint : Nat) : Option (List (List Char) × List (List Char)) :=
  match gtFile with
  | none => none
  | some allEntries =>
    let shuffled := pyShuffle 42 allEntries
    some (shuffled.take splitPoint, shuffled.drop splitPoint)

/-- Numeric value of a decimal digit character. -/
def digitVal (c : Char) : Nat := c.toNat - 48

/-- Read a string of decimal digit characters back as a number (leading
zeros are harmless). Used to show ids are collision-free. -/
def parseDecimal (s : List Char) : Nat :=
  s.foldl (fun a c => a * 10 + digitVal c) 0

/-- Modelled from the spec (§4.2 and §9): the matcher policy as an ordered
list of independent strategy predicates — exact stem equality; equality after
stripping the `-line`, `_line`, `.line` fragments from both stems; substring
containment in either direction or equality after replacing `-` with `_` in
both stems. -/
def specStrategyList (istem : List Char) : List (TxtFile → Bool) :=
  [fun t => t.stem == istem,
   fun t => cleanFragments t.stem == cleanFragments istem,
   fun t => containsSeq istem t.stem || containsSeq t.stem istem ||
     replaceDash istem == replaceDash t.stem]

/-- Modelled from the spec: try each strategy in priority order; the first
strategy that yields any candidate wins, and within a strategy the first
candidate in transcription-discovery order is chosen. -/
def firstStrategyHit (strats : List (TxtFile → Bool)) (ts : List TxtFile) : Option TxtFile :=
  match strats with
  | [] => none
  | p :: rest =>
    match ts.find? p with
    | some t => some t
    | none => firstStrategyHit rest ts

/-- Folding the digit parser over a run of zero characters keeps the
accumulator at zero. -/
theorem foldl_parse_replicate_zero (k : Nat) :
    List.foldl (fun a c => a * 10 + digitVal c) 0 (List.replicate k '0') = 0 := by
  induction k with
  | zero => rfl
  | succ k ih => simpa [List.replicate_succ, digitVal] using ih

/-- The fueled digit computation is correct whenever the fuel dominates the
input: folding the digits back up recovers the number. -/
theorem digitsRevAux_foldr : ∀ fuel n, n ≤ fuel →
    (digitsRevAux fuel n).foldr (fun d a => a * 10 + d) 0 = n := by
  intro fuel
  induction fuel with
  | zero =>
    intro n hn
    interval_cases n
    rfl
  | succ fuel ih =>
    intro n hn
    match n with
    | 0 => rfl
    | m + 1 =>
      have hdiv : (m + 1) / 10 ≤ fuel := by
        have := Nat.div_lt_self (Nat.succ_pos m) (by norm_num : 1 < 10)
        omega
      simp only [digitsRevAux, List.foldr_cons, ih _ hdiv]
      omega

/-- Every entry produced by the fueled digit computation is a digit. -/
theorem digitsRevAux_lt : ∀ fuel n d, d ∈ digitsRevAux fuel n → d < 10 := by
  intro fuel
  induction fuel with
  | zero =>
    intro n d hd
    match n with
    | 0 => simp [digitsRevAux] at hd
    | _ + 1 => simp [digitsRevAux] at hd
  | succ fuel ih =>
    intro n d hd
    match n with
    | 0 => simp [digitsRevAux] at hd
    | m + 1 =>
      simp only [digitsRevAux, List.mem_cons] at hd
      rcases hd with h | h
      · omega
      · exact ih _ _ h

/-- Reading a digit character back gives the digit. -/
theorem digitVal_digitChar : ∀ d, d < 10 → digitVal (Nat.digitChar d) = d := by decide

/-- On a list of digits, parsing the rendered characters agrees with folding
the digits directly. -/
theorem foldr_digitChar (L : List Nat) (h : ∀ d ∈ L, d < 10) :
    L.foldr (fun d a => a * 10 + digitVal (Nat.digitChar d)) 0 =
      L.foldr (fun d a => a * 10 + d) 0 := by
  induction L with
  | nil => rfl
  | cons d L ih =>
    have hd : d < 10 := h d (List.mem_cons_self d L)
    have hL : ∀ e ∈ L, e < 10 := fun e he => h e (List.mem_cons_of_mem d he)
    simp only [List.foldr_cons, ih hL, digitVal_digitChar d hd]

/-- Parsing the decimal rendering of `n` recovers `n`. -/
theorem parseDecimal_decimalChars (n : Nat) : parseDecimal (decimalChars n) = n := by
  unfold parseDecimal decimalChars decimalDigits
  by_cases hn : n = 0
  · subst hn
    decide
  · simp only [hn, if_false, List.foldl_map]
    rw [List.foldl_reverse]
    exact (foldr_digitChar _ (fun d hd => digitsRevAux_lt n n d hd)).trans
      (digitsRevAux_foldr n n le_rfl)

/-- Zero-padding does not change the parsed value. -/
theorem parseDecimal_padZeros (w n : Nat) :
    parseDecimal (padZeros w (decimalChars n)) = n := by
  unfold padZeros
  have := parseDecimal_decimalChars n
  unfold parseDecimal at this ⊢
  rw [List.foldl_append, foldl_parse_replicate_zero, this]

/-- Distinct indices produce distinct ids: the id scheme has no duplicates. -/
theorem formatId_injective : Function.Injective formatId := by
  intro a b h
  unfold formatId at h
  have h2 : padZeros 6 (decimalChars a) = padZeros 6 (decimalChars b) :=
    List.append_cancel_left h
  have := congrArg parseDecimal h2
  rwa [parseDecimal_padZeros, parseDecimal_padZeros] at this

/-- The writer emits exactly one row per matched pair. -/
theorem writerRows_length (pairs : List (ImgFile × List Char)) :
    ∀ k, (writerRows k pairs).length = pairs.length := by
  induction pairs with
  | nil => intro k; rfl
  | cons p rest ih => intro k; simp [writerRows, ih]

/-- The `i`-th writer row holds the line and copied name of the `i`-th pair,
with the id index shifted by the starting index `k`. -/
theorem writerRows_getElem (pairs : List (ImgFile × List Char)) :
    ∀ k i p, pairs[i]? = some p →
      (writerRows k pairs)[i]? = some (gtEntryLine (k + i) p.2, copiedName (k + i) p.1) := by
  induction pairs with
  | nil => intro k i p hp; simp at hp
  | cons q rest ih =>
    intro k i p hp
    match i with
    | 0 =>
      simp only [List.getElem?_cons_zero, Option.some.injEq] at hp
      subst hp
      simp [writerRows]
    | i + 1 =>
      simp only [List.getElem?_cons_succ] at hp
      have := ih (k + 1) i p hp
      have harith : k + 1 + i = k + (i + 1) := by omega
      simpa [writerRows, harith] using this

/-- Moving the element at index `j` to the front is a permutation. -/
theorem cons_getD_eraseIdx_perm {α : Type} :
    ∀ (l : List α) (j : Nat) (d : α), j < l.length →
      List.Perm (l.getD j d :: l.eraseIdx j) l := by
  intro l
  induction l with
  | nil => intro j d h; simp at h
  | cons c t ih =>
    intro j d h
    match j with
    | 0 => simp [List.eraseIdx]
    | j + 1 =>
      have hj : j < t.length := by simpa using h
      have step : List.Perm (t.getD j d :: c :: t.eraseIdx j) (c :: (t.getD j d :: t.eraseIdx j)) :=
        List.Perm.swap c (t.getD j d) (t.eraseIdx j)
      have tail : List.Perm (c :: (t.getD j d :: t.eraseIdx j)) (c :: t) :=
        List.Perm.cons c (ih j d hj)
      simpa [List.eraseIdx] using step.trans tail

/-- The fueled shuffle permutes its input whenever the fuel suffices. -/
theorem shuffleAux_perm {α : Type} :
    ∀ (fuel : Nat) (s : Nat) (l : List α), l.length ≤ fuel →
      List.Perm (shuffleAux fuel s l) l := by
  intro fuel
  induction fuel with
  | zero =>
    intro s l hl
    match l with
    | [] => simp [shuffleAux]
    | c :: rest => simp at hl
  | succ fuel ih =>
    intro s l hl
    match l with
    | [] => simp [shuffleAux]
    | c :: rest =>
      have hj : s % (c :: rest).length < (c :: rest).length :=
        Nat.mod_lt _ (by simp)
      have herase : ((c :: rest).eraseIdx (s % (c :: rest).length)).length ≤ fuel := by
        rw [List.length_eraseIdx]
        simp only [hj, if_pos]
        simp only [List.length_cons] at hl ⊢
        omega
      have tail := ih (lcg s) _ herase
      have head : shuffleAux (fuel + 1) s (c :: rest)
          = (c :: rest).getD (s % (c :: rest).length) c ::
              shuffleAux fuel (lcg s) ((c :: rest).eraseIdx (s % (c :: rest).length)) := rfl
      rw [head]
      exact (List.Perm.cons _ tail).trans (cons_getD_eraseIdx_perm _ _ _ hj)

/-- The modelled seeded shuffle is a permutation of its input. -/
theorem pyShuffle_perm {α : Type} (seed : Nat) (l : List α) :
    List.Perm (pyShuffle seed l) l :=
  shuffleAux_perm l.length (lcg seed) l le_rfl

/-- Unrolling the discovery fold: the result is the accumulator followed by
the per-pattern glob results in pattern order. -/
theorem discoverImages_foldl (exts : List (List Char)) (dir : List (List Char)) :
    ∀ init : List (List Char),
      List.foldl
        (fun acc ext => acc ++ dir.filter (globMatch ext) ++ dir.filter (globMatch (upperExt ext)))
        init exts
      = init ++ (exts.map
          (fun ext => dir.filter (globMatch ext) ++ dir.filter (globMatch (upperExt ext)))).flatten := by
  induction exts with
  | nil => intro init; simp
  | cons e rest ih =>
    intro init
    rw [List.foldl_cons, ih]
    simp [List.append_assoc]

/-- C1: the dataset writer produces exactly one mapping-file line and one
copied image per matched pair; the `i`-th pair gets the line
`formatId i ++ " " ++ text` and the copied name `formatId i ++ suffix`, so ids
are `bentham_` plus the zero-padded 6-digit index, assigned contiguously from
0 in matched-pair order; `formatId` is injective, so there are no duplicate
ids. -/
theorem claim1_writer_invariants (pairs : List (ImgFile × List Char)) :
    (mappingLines pairs).length = pairs.length ∧
    (copiedNames pairs).length = pairs.length ∧
    (∀ i p, pairs[i]? = some p →
      (mappingLines pairs)[i]? = some (gtEntryLine i p.2) ∧
      (copiedNames pairs)[i]? = some (copiedName i p.1)) ∧
    Function.Injective formatId := by
  refine ⟨?_, ?_, ?_, formatId_injective⟩
  · simp [mappingLines, writerRows_length]
  · simp [copiedNames, writerRows_length]
  · intro i p hp
    have h := writerRows_getElem pairs 0 i p hp
    simp only [Nat.zero_add] at h
    exact ⟨by simp [mappingLines, List.getElem?_map, h],
           by simp [copiedNames, List.getElem?_map, h]⟩

/-- Witness for C1 at one concrete matched pair. -/
theorem claim1_witness :
    (mappingLines [(ImgFile.mk "x.png".data, "hi".data)])[0]? =
      some (gtEntryLine 0 "hi".data) ∧
    (copiedNames [(ImgFile.mk "x.png".data, "hi".data)])[0]? =
      some (copiedName 0 (ImgFile.mk "x.png".data)) :=
  (claim1_writer_invariants [(ImgFile.mk "x.png".data, "hi".data)]).2.2.1 0
    (ImgFile.mk "x.png".data, "hi".data) rfl

/-- C2: for every image stem, the matcher coincides with the spec's policy of
an ordered strategy list — exact stem match, then fragment-stripped match,
then containment or separator-normalized match — where the first strategy
with any candidate wins and, within a strategy, the first transcription file
in discovery order is chosen; every result is a discovered file. -/
theorem claim2_matcher_strategy_order (istem : List Char) (ts : List TxtFile) :
    findTranscription istem ts = firstStrategyHit (specStrategyList istem) ts ∧
    (∀ t, findTranscription istem ts = some t → t ∈ ts) := by
  constructor
  · unfold findTranscription strat1Find strat2Find strat3Find
    simp only [specStrategyList, firstStrategyHit]
    cases List.find? (fun t => t.stem == istem) ts <;>
      cases List.find? (fun t => cleanFragments t.stem == cleanFragments istem) ts <;>
      cases List.find?
        (fun t => containsSeq istem t.stem || containsSeq t.stem istem ||
          replaceDash istem == replaceDash t.stem) ts <;>
      rfl
  · intro t ht
    unfold findTranscription at ht
    cases h1 : strat1Find istem ts with
    | some u =>
      rw [h1] at ht
      simp only [Option.some.injEq] at ht
      subst ht
      unfold strat1Find at h1
      exact List.mem_of_find?_eq_some h1
    | none =>
      rw [h1] at ht
      cases h2 : strat2Find istem ts with
      | some u =>
        rw [h2] at ht
        simp only [Option.some.injEq] at ht
        subst ht
        unfold strat2Find at h2
        exact List.mem_of_find?_eq_some h2
      | none =>
        rw [h2] at ht
        unfold strat3Find at ht
        exact List.mem_of_find?_eq_some ht

/-- Witness for C2: a tier-2 example (stems `0001-line` and `0001`). -/
theorem claim2_witness :
    findTranscription "0001-line".data [TxtFile.mk "0001.txt".data (some "hello".data)] =
      firstStrategyHit (specStrategyList "0001-line".data)
        [TxtFile.mk "0001.txt".data (some "hello".data)] ∧
    TxtFile.mk "0001.txt".data (some "hello".data) ∈
      [TxtFile.mk "0001.txt".data (some "hello".data)] :=
  ⟨(claim2_matcher_strategy_order "0001-line".data
      [TxtFile.mk "0001.txt".data (some "hello".data)]).1,
   (claim2_matcher_strategy_order "0001-line".data
      [TxtFile.mk "0001.txt".data (some "hello".data)]).2
      (TxtFile.mk "0001.txt".data (some "hello".data)) (by decide)⟩

/-- C3, behavior at the failing input: a transcription whose content reads as
`hello\nworld\n` is only stripped, never newline-collapsed; its single
matched pair renders a mapping file with two newline characters — two
physical lines — contradicting the one-entry-per-line format. -/
theorem claim3_newline_not_collapsed :
    pyStrip "hello\nworld\n".data = "hello\nworld".data ∧
    renderGt (mappingLines [(ImgFile.mk "a.png".data, pyStrip "hello\nworld\n".data)]) =
      "bentham_000000 hello\nworld\n".data ∧
    (renderGt (mappingLines
        [(ImgFile.mk "a.png".data, pyStrip "hello\nworld\n".data)])).count '\n' = 2 :=
  ⟨by decide, by decide, by decide⟩

/-- C4: on a non-empty mapping file, the split outputs are the first
`splitPoint` shuffled entries and the remainder in post-shuffle order; their
concatenation is a permutation (multiset-equal) of the original entries, and
when the entries are pairwise distinct the two outputs are disjoint. -/
theorem claim4_split_partition (g : PyRandomState) (entries : List (List Char))
    (splitPoint : Nat) (_hne : entries ≠ []) :
    ∃ tr va,
      create_train_val_split g (some entries) splitPoint = some (tr, va) ∧
      tr = (pyShuffle 42 entries).take splitPoint ∧
      va = (pyShuffle 42 entries).drop splitPoint ∧
      List.Perm (tr ++ va) entries ∧
      (entries.Nodup → tr.Disjoint va) := by
  refine ⟨_, _, rfl, rfl, rfl, ?_, ?_⟩
  · rw [List.take_append_drop]
    exact pyShuffle_perm 42 entries
  · intro hnd
    have hnd2 : (pyShuffle 42 entries).Nodup := ((pyShuffle_perm 42 entries).nodup_iff).2 hnd
    have happ : ((pyShuffle 42 entries).take splitPoint ++
        (pyShuffle 42 entries).drop splitPoint).Nodup := by
      rw [List.take_append_drop]
      exact hnd2
    exact List.disjoint_of_nodup_append happ

/-- Witness for C4 with two entries and split point 1. -/
theorem claim4_witness :
    ∃ tr va,
      create_train_val_split ⟨0⟩ (some ["a".data, "b".data]) 1 = some (tr, va) ∧
      tr = (pyShuffle 42 ["a".data, "b".data]).take 1 ∧
      va = (pyShuffle 42 ["a".data, "b".data]).drop 1 ∧
      List.Perm (tr ++ va) ["a".data, "b".data] ∧
      (["a".data, "b".data].Nodup → tr.Disjoint va) :=
  claim4_split_partition ⟨0⟩ ["a".data, "b".data] 1 (by decide)

/-- C6: the split ignores the ambient random-module state — the explicit
reseed with the constant 42 makes the output a pure function of the entries
and split point, so repeated runs produce identical train and validation
contents. -/
theorem claim6_split_deterministic (g1 g2 : PyRandomState)
    (gtFile : Option (List (List Char))) (splitPoint : Nat) :
    create_train_val_split g1 gtFile splitPoint =
      create_train_val_split g2 gtFile splitPoint ∧
    ∀ entries, create_train_val_split g1 (some entries) splitPoint =
      some ((pyShuffle 42 entries).take splitPoint,
            (pyShuffle 42 entries).drop splitPoint) :=
  ⟨rfl, fun _ => rfl⟩

/-- C7 fails on the code: discovery applies no sort key, so two filesystem
enumeration orders of the same files produce different mapping files — the
ids end up attached to different texts. -/
theorem claim7_counterexample :
    List.Perm ["a.png".data, "b.png".data] ["b.png".data, "a.png".data] ∧
    create_iam_format_dataset
        ⟨some ["a.png".data, "b.png".data],
         some [TxtFile.mk "a.txt".data (some "alpha\n".data),
               TxtFile.mk "b.txt".data (some "beta\n".data)]⟩ ≠
      create_iam_format_dataset
        ⟨some ["b.png".data, "a.png".data],
         some [TxtFile.mk "a.txt".data (some "alpha\n".data),
               TxtFile.mk "b.txt".data (some "beta\n".data)]⟩ :=
  ⟨by decide, by decide⟩

/-- C7 amended: discovery returns files grouped by glob pattern in the fixed
extension order (lowercase, then uppercase, per extension), and within each
pattern it preserves the directory's incidental enumeration order (each
pattern's matches form a sublist of the listing); no explicit sort key is
applied, so byte-identical reruns are guaranteed only for an unchanged
enumeration order. -/
theorem claim7_discovery_order (dir : List (List Char)) :
    discoverImages dir =
      (imageExtensions.map
        (fun ext => dir.filter (globMatch ext) ++ dir.filter (globMatch (upperExt ext)))).flatten ∧
    ∀ ext, ext ∈ imageExtensions →
      (dir.filter (globMatch ext)).Sublist dir ∧
      (dir.filter (globMatch (upperExt ext))).Sublist dir := by
  constructor
  · have h := discoverImages_foldl imageExtensions dir []
    simpa [discoverImages] using h
  · intro ext _
    exact ⟨List.filter_sublist dir, List.filter_sublist dir⟩

/-- Witness for C7 (amended) at a concrete listing and the `.png` pattern. -/
theorem claim7_witness :
    ".png".data ∈ imageExtensions ∧
    ((["x.png".data, "y.txt".data].filter (globMatch ".png".data)).Sublist
        ["x.png".data, "y.txt".data] ∧
      (["x.png".data, "y.txt".data].filter (globMatch (upperExt ".png".data))).Sublist
        ["x.png".data, "y.txt".data]) :=
  ⟨by decide,
   (claim7_discovery_order ["x.png".data, "y.txt".data]).2 ".png".data (by decide)⟩

/-- C8 fails on the code: an image whose matched transcription cannot be read
is dropped entirely — here the unmatched-images sequence is empty, so the
image is not enumerated as unmatched (and is not matched either). -/
theorem claim8_counterexample :
    matchImages [ImgFile.mk "a.png".data] [TxtFile.mk "a.txt".data none] = ([], []) := by
  decide

/-- C8 amended: when the matched transcription of an image fails to read, the
run continues exactly as if that image were absent: the image is excluded
from the matched pairs but is not appended to the unmatched-images sequence
(only an error message is printed). -/
theorem claim8_read_failure_skips (img : ImgFile) (rest : List ImgFile)
    (ts : List TxtFile) (t : TxtFile)
    (hfind : findTranscription img.stem ts = some t)
    (hread : t.readResult = none) :
    matchImages (img :: rest) ts = matchImages rest ts := by
  simp [matchImages, hfind, hread]

/-- Witness for C8 (amended) at a concrete read-failing transcription. -/
theorem claim8_witness :
    findTranscription (ImgFile.mk "a.png".data).stem [TxtFile.mk "a.txt".data none] =
      some (TxtFile.mk "a.txt".data none) ∧
    (TxtFile.mk "a.txt".data none).readResult = none ∧
    matchImages [ImgFile.mk "a.png".data] [TxtFile.mk "a.txt".data none] =
      matchImages [] [TxtFile.mk "a.txt".data none] :=
  ⟨by decide, rfl,
   claim8_read_failure_skips (ImgFile.mk "a.png".data) [] [TxtFile.mk "a.txt".data none]
     (TxtFile.mk "a.txt".data none) (by decide) rfl⟩

/-- C9: with both input directories present but zero matched pairs, the
conversion reports the distinct `noPairs` condition and returns failure with
no mapping file written, after the output directory was already created; a
missing source subdirectory is instead reported as a configuration error
before any output is produced. -/
theorem claim9_no_pairs_distinct (imgDir : List (List Char)) (txtDir : List TxtFile) :
    ((matchImages ((discoverImages imgDir).map ImgFile.mk) (discoverTexts txtDir)).1 = [] →
      create_iam_format_dataset ⟨some imgDir, some txtDir⟩ =
        ⟨false, some ErrKind.noPairs, true, none, []⟩) ∧
    (∀ tOpt, create_iam_format_dataset ⟨none, tOpt⟩ =
      ⟨false, some ErrKind.missingImagesDir, false, none, []⟩) ∧
    (create_iam_format_dataset ⟨some imgDir, none⟩ =
      ⟨false, some ErrKind.missingTranscriptionsDir, false, none, []⟩) ∧
    ErrKind.noPairs ≠ ErrKind.missingImagesDir := by
  refine ⟨?_, fun _ => rfl, rfl, by decide⟩
  intro h
  simp [create_iam_format_dataset, h]

/-- Witness for C9: one unmatched image and no transcriptions. -/
theorem claim9_witness :
    create_iam_format_dataset ⟨some ["a.png".data], some []⟩ =
      ⟨false, some ErrKind.noPairs, true, none, []⟩ :=
  (claim9_no_pairs_distinct ["a.png".data] []).1 (by decide)

/-- C10: a mapping file that exists but holds zero entries is not an error:
the split succeeds and both output files are empty; the only failure path is
an absent mapping file. -/
theorem claim10_empty_mapping_succeeds (g : PyRandomState) (splitPoint : Nat) :
    create_train_val_split g (some []) splitPoint = some ([], []) ∧
    (∀ entries, (create_train_val_split g (some entries) splitPoint).isSome = true) ∧
    create_train_val_split g none splitPoint = none := by
  refine ⟨?_, fun entries => rfl, rfl⟩
  simp [create_train_val_split, pyShuffle, shuffleAux]
